import Mathlib

/-!
Verification of `src/packages/core/src/express-extension/use-express-server.ts`:
a shallow embedding of the route-registration glue code (path combination,
prefix lookup, async dispatch wrapping, controller instantiation and route
registration), with theorems settling the specification's claims about it.

JavaScript strings are modelled as lists of characters: `charAt(0) === c`
becomes `head? = some c`, `substring(1)` becomes `drop 1`, string `+` becomes
`++`, and `s !== ''` becomes `s ≠ []`.
-/

/-- The model of a JavaScript string: its list of characters. -/
abbrev JSString := List Char

/-- `combineRouterPath` from the source, line by line:
`let result = ''`;
`if (prefix !== '') { if (prefix.charAt(0) === '/') prefix = prefix.substring(1); result += prefix; }`;
`result += '/'`;
`if (path !== '') { if (path.charAt(0) === '/') path = path.substring(1); result += path; }`;
`if (result.charAt(0) !== '/') return '/' + result; return result;`. -/
def combineRouterPath (pfx path : JSString) : JSString :=
  let r1 : JSString :=
    if pfx ≠ [] then (if pfx.head? = some '/' then pfx.drop 1 else pfx) else []
  let r2 := r1 ++ ['/']
  let r3 :=
    if path ≠ [] then r2 ++ (if path.head? = some '/' then path.drop 1 else path) else r2
  if r3.head? ≠ some '/' then '/' :: r3 else r3

/-- Stripping at most one leading slash, as the specification words it. -/
def stripOneLeadingSlash (s : JSString) : JSString :=
  if s.head? = some '/' then s.drop 1 else s

/-- The Path Combiner exactly as the specification describes it: strip at most
one leading slash from each argument, concatenate around a single slash, and
prepend a slash when the concatenation does not already start with one. -/
def combineRouterPathSpec (pfx path : JSString) : JSString :=
  let c := stripOneLeadingSlash pfx ++ ['/'] ++ stripOneLeadingSlash path
  if c.head? = some '/' then c else '/' :: c

/-- Middleware functions are opaque to the registration logic; they are
modelled as abstract handles. -/
abbrev Middleware := Nat

/-- A Combined Route: a route descriptor enriched with its resolved
middlewares. `isClass` marks the controller-level prefix entry. Verbs and
method names are only compared for equality, so plain `String` suffices for
them; `path` takes part in path combination and uses the character-list
model. -/
structure CombineRoute where
  isClass : Bool
  requestMethod : String
  path : JSString
  methodName : String
  middlewares : List Middleware
  deriving DecidableEq

/-- `getPrefix` from the source:
`for (const i in routes) if (routes[i].isClass) return routes[i].path; return '';`
— JavaScript `for..in` on an array visits the indices in ascending order, so
this is a first-match scan over the list. -/
def getPrefix : List CombineRoute → JSString
  | [] => []
  | r :: rs => if r.isClass then r.path else getPrefix rs

/-- The outcome of a JavaScript promise: resolved, or rejected with a reason. -/
inductive PromiseOutcome (ε : Type) where
  | resolved : PromiseOutcome ε
  | rejected : ε → PromiseOutcome ε
  deriving DecidableEq

/-- `asyncHelper` from the source:
`(fn) => (req, res, next) => { fn(req, res, next).catch(next); }`.
The wrapper's own calls to `next` are the observable effect, modelled as the
returned list of arguments it passes to `next`: `.catch(next)` calls `next`
once with the rejection reason when the promise rejects, and never when it
resolves. -/
def asyncHelper {Req Res Next ε : Type} (fn : Req → Res → Next → PromiseOutcome ε)
    (req : Req) (res : Res) (next : Next) : List ε :=
  match fn req res next with
  | .resolved => []
  | .rejected e => [e]

/-- A dependency-injection container (injection-js `ReflectiveInjector`), an
external collaborator abstracted to what registration observes of it: the
ordered seed of class references it was resolved from, plus an id that is
fresh per `resolveAndCreate` call. Class references are abstract `Nat`
handles. -/
structure ReflectiveInjector where
  id : Nat
  seed : List Nat
  deriving DecidableEq

/-- A controller instance as fetched from a container:
`injector.get(controller)` is abstracted to the class it was requested for
together with the container it came from. -/
structure ControllerInstance where
  cls : Nat
  injectorId : Nat
  seed : List Nat
  deriving DecidableEq

/-- `ReflectiveInjector.resolveAndCreate(classes)`: creates a container seeded
with `classes`. Freshness is modelled by threading a counter that numbers each
container created during a bootstrap run. -/
def ReflectiveInjector.resolveAndCreate (ctr : Nat) (classes : List Nat) :
    ReflectiveInjector × Nat :=
  (⟨ctr, classes⟩, ctr + 1)

/-- `injector.get(controller)`: the controller instance resolved by the
container. -/
def ReflectiveInjector.get (inj : ReflectiveInjector) (cls : Nat) : ControllerInstance :=
  ⟨cls, inj.id, inj.seed⟩

/-- The handler value registered for a route: `callInstance(instance, route)`
in the source wraps `instance[route.methodName]` in `asyncHelper`; as
registration data it is determined by the instance and the method name. -/
structure BoundHandler where
  inst : ControllerInstance
  methodName : String
  deriving DecidableEq

/-- `callInstance` from the source, as registration data. -/
def callInstance (inst : ControllerInstance) (route : CombineRoute) : BoundHandler :=
  ⟨inst, route.methodName⟩

/-- One entry of the framework's routing table:
`app[requestMethod](routePath, handler)` or
`app[requestMethod](routePath, middleware, handler)`; the `middleware` field
is `some` exactly when the extra middleware argument was passed. -/
structure Registration where
  verb : String
  path : JSString
  middleware : Option (List Middleware)
  handler : BoundHandler
  deriving DecidableEq

/-- The express application, abstracted to its routing table in registration
order; `app[verb](...)` appends an entry. -/
abbrev App := List Registration

/-- Modelled from the spec: `combineMiddlewares` (imported from `../utils`,
whose source is not under src/) combines multiple middlewares, in declaration
order, into a single chained middleware function; it is modelled as the
ordered list of middlewares it chains. -/
def combineMiddlewares (ms : List Middleware) : List Middleware := ms

/-- `addRouterToExpress` from the source: looks up the prefix with
`getPrefix`, then for each combined route that is not the `isClass` prefix
entry registers
`app[route.requestMethod](combineRouterPath(prefix, route.path), [middleware,] callInstance(instance, route))`,
the chained middleware argument being present exactly when `route.middlewares`
is non-empty. The `forEach` over the mutated app is a left fold over the
routing table. -/
def addRouterToExpress (app : App) (combinedRoutes : List CombineRoute)
    (controllerInstance : ControllerInstance) : App :=
  let pfx := getPrefix combinedRoutes
  combinedRoutes.foldl
    (fun a route =>
      if !route.isClass then
        let routePath := combineRouterPath pfx route.path
        if route.middlewares.length > 0 then
          a ++ [⟨route.requestMethod, routePath, some (combineMiddlewares route.middlewares),
                 callInstance controllerInstance route⟩]
        else
          a ++ [⟨route.requestMethod, routePath, none, callInstance controllerInstance route⟩]
      else a)
    app

/-- Module Descriptor (`ModuleMetadata`): declared controllers and providers,
each possibly absent (`module.controllers || []`, `module.providers || []` in
the source). -/
structure ModuleMetadata where
  controllers : Option (List Nat)
  providers : Option (List Nat)
  deriving DecidableEq

/-- `ExpressAppOption` from the source: global modules, controllers and
providers, all optional. -/
structure ExpressAppOption where
  imports : Option (List Nat)
  controllers : Option (List Nat)
  providers : Option (List Nat)
  deriving DecidableEq

/-- `option?.providers || []`. -/
def globalProviders : Option ExpressAppOption → List Nat
  | none => []
  | some o => o.providers.getD []

/-- `option?.controllers || []`. -/
def optionControllers : Option ExpressAppOption → List Nat
  | none => []
  | some o => o.controllers.getD []

/-- `option?.imports || []`. -/
def optionImports : Option ExpressAppOption → List Nat
  | none => []
  | some o => o.imports.getD []

/-- `addModuleToExpressApp` from the source. For each controller of the
module,
`ReflectiveInjector.resolveAndCreate([controller, ...providers, ...globalProvidersClasses])`
creates a container, the controller instance is fetched from it, and the
controller's combined routes are registered. `combineRW c` stands for
`combineRouteWithMiddleware(c, store.routes, store.middlewares)` from
`./combine-route-with-middleware` (outside src/); it is kept abstract, so
every theorem below holds for any such function over any metadata store. The
container freshness counter is threaded alongside the app. -/
def addModuleToExpressApp (combineRW : Nat → List CombineRoute)
    (app : App) (ctr : Nat) (module : ModuleMetadata)
    (option : Option ExpressAppOption) : App × Nat :=
  let controllers := module.controllers.getD []
  let providers := module.providers.getD []
  let globalProvidersClasses := globalProviders option
  controllers.foldl
    (fun st controller =>
      let ic := ReflectiveInjector.resolveAndCreate st.2
        (controller :: (providers ++ globalProvidersClasses))
      let controllerInstance := ic.1.get controller
      let combinedRoutes := combineRW controller
      (addRouterToExpress st.1 combinedRoutes controllerInstance, ic.2))
    (app, ctr)

/-- `useExpressServer` from the source: for each imported module class,
`createModuleInstance(moduleClass)` runs the module constructor (a side effect
with no observable effect on the routing table, so not modelled further),
`Reflect.getMetadata('module', moduleClass)` — modelled by the map
`moduleMeta` — yields its module descriptor, and its controllers are
registered; then, when the standalone `controllers` option is non-empty, those
controllers are registered as a synthetic module
`{ controllers: controllerClasses }` with no providers of its own; finally the
function returns `true`. -/
def useExpressServer (moduleMeta : Nat → ModuleMetadata)
    (combineRW : Nat → List CombineRoute)
    (app : App) (ctr : Nat) (option : Option ExpressAppOption) : (App × Nat) × Bool :=
  let controllerClasses := optionControllers option
  let moduleClasses := optionImports option
  let st1 := moduleClasses.foldl
    (fun st moduleClass =>
      addModuleToExpressApp combineRW st.1 st.2 (moduleMeta moduleClass) option)
    (app, ctr)
  let st2 :=
    if controllerClasses.length > 0 then
      addModuleToExpressApp combineRW st1.1 st1.2 ⟨some controllerClasses, none⟩ option
    else st1
  (st2, true)

/-- The registration entry `addRouterToExpress` emits for one non-class route,
given the controller prefix and the controller instance. -/
def registrationOf (pfx : JSString) (ci : ControllerInstance) (route : CombineRoute) :
    Registration :=
  ⟨route.requestMethod, combineRouterPath pfx route.path,
   if route.middlewares.length > 0 then some (combineMiddlewares route.middlewares) else none,
   callInstance ci route⟩

/-- The registrations one `addRouterToExpress` call appends: the non-class
routes, in order, each mapped to its registration entry. -/
def routerDelta (combinedRoutes : List CombineRoute) (ci : ControllerInstance) : App :=
  combinedRoutes.filterMap
    (fun route => if route.isClass then none
      else some (registrationOf (getPrefix combinedRoutes) ci route))

/-- The registrations `addModuleToExpressApp` appends: one `routerDelta` per
controller in order, the containers numbered `ctr, ctr + 1, ...`. -/
def moduleDelta (combineRW : Nat → List CombineRoute) (ctr : Nat)
    (ps gs : List Nat) : List Nat → App
  | [] => []
  | c :: rest =>
      routerDelta (combineRW c) ⟨c, ctr, c :: (ps ++ gs)⟩ ++
        moduleDelta combineRW (ctr + 1) ps gs rest

/-- The verb and path of each routing-table entry, in registration order. -/
def verbPaths (a : App) : List (String × JSString) :=
  a.map (fun r => (r.verb, r.path))

/-- The verb-path pairs one controller's combined routes register. -/
def routeVPs (rs : List CombineRoute) : List (String × JSString) :=
  rs.filterMap
    (fun route => if route.isClass then none
      else some (route.requestMethod, combineRouterPath (getPrefix rs) route.path))

/-- The verb-path pairs one module registers. -/
def moduleVPs (combineRW : Nat → List CombineRoute) (cs : List Nat) :
    List (String × JSString) :=
  cs.flatMap (fun c => routeVPs (combineRW c))

/-- The verb-path pairs one `useExpressServer` call appends. -/
def serverVPs (moduleMeta : Nat → ModuleMetadata) (combineRW : Nat → List CombineRoute)
    (option : Option ExpressAppOption) : List (String × JSString) :=
  ((optionImports option).flatMap
      (fun mc => moduleVPs combineRW ((moduleMeta mc).controllers.getD []))) ++
    (if (optionControllers option).length > 0 then
      moduleVPs combineRW (optionControllers option)
    else [])

/-- A one-route Combined Route table, used for concrete instantiations. -/
def exampleCombineRW : Nat → List CombineRoute :=
  fun _ => [⟨false, "get", ['p'], "h", []⟩]

/-- A metadata store with no module declarations, used for concrete
instantiations. -/
def exampleModuleMeta : Nat → ModuleMetadata :=
  fun _ => ⟨none, none⟩

/-- Options registering one standalone controller, used for concrete
instantiations. -/
def exampleOption : Option ExpressAppOption :=
  some ⟨none, some [0], none⟩

/-- C1: if the wrapped function's promise resolves, the wrapper calls `next`
zero times; if it rejects with error `e`, the wrapper calls `next` exactly
once, with exactly `e` as the argument. -/
theorem asyncHelper_next_calls {Req Res Next ε : Type}
    (fn : Req → Res → Next → PromiseOutcome ε) (req : Req) (res : Res) (next : Next) :
    (fn req res next = .resolved → asyncHelper fn req res next = []) ∧
    (∀ e : ε, fn req res next = .rejected e → asyncHelper fn req res next = [e]) := by
  constructor
  · intro h
    simp [asyncHelper, h]
  · intro e h
    simp [asyncHelper, h]

/-- Witness for C1 at a concrete rejecting handler. -/
theorem asyncHelper_next_calls_witness :
    ((fun (_ : Unit) (_ : Unit) (_ : Unit) => PromiseOutcome.rejected 7) () () () =
        PromiseOutcome.rejected 7) ∧
    asyncHelper (fun (_ : Unit) (_ : Unit) (_ : Unit) => PromiseOutcome.rejected 7) () () ()
      = [7] :=
  ⟨rfl, (asyncHelper_next_calls (fun _ _ _ => PromiseOutcome.rejected 7) () () ()).2 7 rfl⟩

/-- C2: `combineRouterPath` computes exactly the strip–concatenate–prepend
recipe of the specification, and the quoted examples hold, double slash
included. -/
theorem combineRouterPath_eq_spec :
    (∀ pfx path : JSString, combineRouterPath pfx path = combineRouterPathSpec pfx path) ∧
    combineRouterPath [] [] = ['/'] ∧
    combineRouterPath [] ['x'] = ['/', 'x'] ∧
    combineRouterPath ['/', 'a', '/'] ['b'] = ['/', 'a', '/', '/', 'b'] := by
  refine ⟨?_, by decide, by decide, by decide⟩
  intro pfx path
  simp only [combineRouterPath, combineRouterPathSpec, stripOneLeadingSlash]
  have hpfx : (if pfx ≠ [] then (if pfx.head? = some '/' then pfx.drop 1 else pfx)
        else ([] : JSString))
      = if pfx.head? = some '/' then pfx.drop 1 else pfx := by
    cases pfx <;> simp
  have hpath : ∀ r2 : JSString,
      (if path ≠ [] then r2 ++ (if path.head? = some '/' then path.drop 1 else path) else r2)
      = r2 ++ (if path.head? = some '/' then path.drop 1 else path) := by
    intro r2
    cases path <;> simp
  rw [hpfx, hpath]
  have hflip : ∀ r : JSString,
      (if r.head? ≠ some '/' then '/' :: r else r)
      = (if r.head? = some '/' then r else '/' :: r) := by
    intro r
    by_cases h : r.head? = some '/' <;> simp [h]
  rw [hflip]

/-- C3: the combined path always begins with a slash, and is in particular
nonempty. -/
theorem combineRouterPath_startsWithSlash (pfx path : JSString) :
    (combineRouterPath pfx path).head? = some '/' ∧ combineRouterPath pfx path ≠ [] := by
  have h : ∀ r : JSString,
      ((if r.head? ≠ some '/' then '/' :: r else r).head? = some '/') ∧
      (if r.head? ≠ some '/' then '/' :: r else r) ≠ [] := by
    intro r
    by_cases hr : r.head? = some '/'
    · rw [if_neg (by simp [hr])]
      refine ⟨hr, ?_⟩
      rintro rfl
      simp at hr
    · rw [if_pos (by simp [hr])]
      exact ⟨rfl, by simp⟩
  simp only [combineRouterPath]
  exact h _

/-- Helper: combining the empty prefix with any path yields a slash followed by
the path with at most one leading slash stripped. -/
theorem combineRouterPath_nil_left (p : JSString) :
    combineRouterPath [] p = '/' :: stripOneLeadingSlash p := by
  unfold combineRouterPath stripOneLeadingSlash
  cases p <;> simp

/-- C9: combining the empty prefix with an already-normalized absolute path
(leading slash, no leading double slash) is the identity. -/
theorem combineRouterPath_emptyPrefix_id (p : JSString)
    (h1 : p.head? = some '/') (h2 : (p.drop 1).head? ≠ some '/') :
    combineRouterPath [] p = p := by
  rw [combineRouterPath_nil_left]
  unfold stripOneLeadingSlash
  rw [if_pos h1]
  cases p with
  | nil => simp at h1
  | cons c rest =>
    simp only [List.head?_cons, Option.some.injEq] at h1
    simp [h1]

/-- Witness for C9 at the concrete path "/x". -/
theorem combineRouterPath_emptyPrefix_id_witness :
    (['/', 'x'] : JSString).head? = some '/' ∧
    ((['/', 'x'] : JSString).drop 1).head? ≠ some '/' ∧
    combineRouterPath [] ['/', 'x'] = ['/', 'x'] :=
  ⟨by decide, by decide, combineRouterPath_emptyPrefix_id ['/', 'x'] (by decide) (by decide)⟩

/-- C6: `getPrefix` returns the path of the first entry whose `isClass` flag is
true, and the empty string when no entry has it (including the empty list). -/
theorem getPrefix_eq_first_isClass (routes : List CombineRoute) :
    getPrefix routes = ((routes.find? (fun r => r.isClass)).map (fun r => r.path)).getD [] := by
  induction routes with
  | nil => rfl
  | cons r rs ih =>
    by_cases h : r.isClass <;> simp [getPrefix, List.find?_cons, h, ih]

/-- Helper: a fold whose step appends the optional entry emitted for each
element equals appending the filterMap of the list. -/
theorem foldl_emit (f : CombineRoute → Option Registration)
    (step : App → CombineRoute → App)
    (hstep : ∀ a route, step a route = a ++ (f route).toList) :
    ∀ (rs : List CombineRoute) (app : App),
      rs.foldl step app = app ++ rs.filterMap f := by
  intro rs
  induction rs with
  | nil =>
    intro app
    simp
  | cons r rest ih =>
    intro app
    rw [List.foldl_cons, hstep, List.filterMap_cons, ih]
    cases f r <;> simp

/-- Helper: `addRouterToExpress` appends exactly `routerDelta` to the routing
table. -/
theorem addRouterToExpress_eq (app : App) (rs : List CombineRoute)
    (ci : ControllerInstance) :
    addRouterToExpress app rs ci = app ++ routerDelta rs ci := by
  simp only [addRouterToExpress, routerDelta]
  generalize getPrefix rs = pfx
  refine foldl_emit
    (fun route => if route.isClass then none else some (registrationOf pfx ci route))
    _ ?_ rs app
  intro a route
  cases hc : route.isClass
  · by_cases hm : route.middlewares.length > 0
    · simp [hc, hm, registrationOf]
    · simp [hc, hm, registrationOf]
  · simp [hc]

/-- C4: the Route Registrar registers no `isClass` entry; each non-class
combined route, in list order, is registered under its `requestMethod` verb at
`combineRouterPath(prefix, route.path)` with the prefix looked up by
`getPrefix`, and the chained middleware is passed as an extra argument exactly
when the route's middleware list is non-empty. -/
theorem addRouterToExpress_registers (app : App) (rs : List CombineRoute)
    (ci : ControllerInstance) :
    addRouterToExpress app rs ci =
      app ++ rs.filterMap (fun route =>
        if route.isClass then none
        else some (Registration.mk route.requestMethod
          (combineRouterPath (getPrefix rs) route.path)
          (if route.middlewares.length > 0 then some (combineMiddlewares route.middlewares)
           else none)
          (callInstance ci route))) :=
  addRouterToExpress_eq app rs ci

/-- Helper: with no `isClass` entry, the looked-up prefix is the empty
string. -/
theorem getPrefix_eq_nil (rs : List CombineRoute) (h : ∀ r ∈ rs, r.isClass = false) :
    getPrefix rs = [] := by
  induction rs with
  | nil => rfl
  | cons r rest ih =>
    simp only [getPrefix, h r (List.mem_cons_self r rest), Bool.false_eq_true, if_false]
    exact ih (fun x hx => h x (List.mem_cons_of_mem r hx))

/-- Helper: over a list with no `isClass` entry, filtering degenerates to
mapping. -/
theorem filterMap_if_eq_map (rs : List CombineRoute) (f : CombineRoute → Registration)
    (h : ∀ r ∈ rs, r.isClass = false) :
    rs.filterMap (fun route => if route.isClass then none else some (f route)) =
      rs.map f := by
  induction rs with
  | nil => rfl
  | cons r rest ih =>
    simp [List.filterMap_cons, h r (List.mem_cons_self r rest),
      ih (fun x hx => h x (List.mem_cons_of_mem r hx))]

/-- C10: when no combined route is the `isClass` prefix entry, registration
still happens for every route, with the empty prefix: each route lands at a
slash followed by its own path with at most one leading slash stripped. -/
theorem addRouterToExpress_noPrefixEntry (app : App) (rs : List CombineRoute)
    (ci : ControllerInstance) (h : ∀ r ∈ rs, r.isClass = false) :
    addRouterToExpress app rs ci =
      app ++ rs.map (fun route =>
        Registration.mk route.requestMethod ('/' :: stripOneLeadingSlash route.path)
          (if route.middlewares.length > 0 then some (combineMiddlewares route.middlewares)
           else none)
          (callInstance ci route)) := by
  rw [addRouterToExpress_eq]
  unfold routerDelta
  rw [getPrefix_eq_nil rs h, filterMap_if_eq_map rs _ h]
  have hreg : ∀ route : CombineRoute,
      registrationOf [] ci route =
        Registration.mk route.requestMethod ('/' :: stripOneLeadingSlash route.path)
          (if route.middlewares.length > 0 then some (combineMiddlewares route.middlewares)
           else none)
          (callInstance ci route) := by
    intro route
    simp [registrationOf, combineRouterPath_nil_left]
  exact congrArg (fun g => app ++ List.map g rs) (funext hreg)

/-- Witness for C10 at a single middleware-free GET route. -/
theorem addRouterToExpress_noPrefixEntry_witness :
    (∀ r ∈ [CombineRoute.mk false "get" ['a'] "m" []], r.isClass = false) ∧
    addRouterToExpress [] [CombineRoute.mk false "get" ['a'] "m" []]
        (ControllerInstance.mk 0 0 [0]) =
      [] ++ [CombineRoute.mk false "get" ['a'] "m" []].map (fun route =>
        Registration.mk route.requestMethod ('/' :: stripOneLeadingSlash route.path)
          (if route.middlewares.length > 0 then some (combineMiddlewares route.middlewares)
           else none)
          (callInstance (ControllerInstance.mk 0 0 [0]) route)) :=
  ⟨by decide, addRouterToExpress_noPrefixEntry [] _ _ (by decide)⟩

/-- Helper: the instance bound into every registration of one
`addRouterToExpress` call is the controller instance it was given. -/
theorem mem_routerDelta_handler (rs : List CombineRoute) (ci : ControllerInstance)
    (reg : Registration) (h : reg ∈ routerDelta rs ci) : reg.handler.inst = ci := by
  unfold routerDelta at h
  rcases List.mem_filterMap.mp h with ⟨route, _, heq⟩
  cases hc : route.isClass
  · simp only [hc, Bool.false_eq_true, if_false, Option.some.injEq] at heq
    rw [← heq]
    rfl
  · simp [hc] at heq

/-- Helper: `addModuleToExpressApp` appends `moduleDelta` and advances the
container counter by the number of controllers. -/
theorem addModuleToExpressApp_eq (combineRW : Nat → List CombineRoute) (app : App)
    (ctr : Nat) (module : ModuleMetadata) (option : Option ExpressAppOption) :
    addModuleToExpressApp combineRW app ctr module option =
      (app ++ moduleDelta combineRW ctr (module.providers.getD [])
          (globalProviders option) (module.controllers.getD []),
       ctr + (module.controllers.getD []).length) := by
  simp only [addModuleToExpressApp]
  generalize module.controllers.getD [] = cs
  generalize module.providers.getD [] = ps
  generalize globalProviders option = gs
  induction cs generalizing app ctr with
  | nil => simp [moduleDelta]
  | cons c rest ih =>
    simp only [List.foldl_cons, moduleDelta, ReflectiveInjector.resolveAndCreate,
      ReflectiveInjector.get] at ih ⊢
    rw [ih, addRouterToExpress_eq]
    simp only [List.append_assoc, List.length_cons, Prod.mk.injEq]
    exact ⟨by simp, by omega⟩

/-- Helper: every registration of one module carries the module's seeding, a
controller of the module, and a container id in the window the module used. -/
theorem mem_moduleDelta (combineRW : Nat → List CombineRoute) (ps gs : List Nat) :
    ∀ (cs : List Nat) (ctr : Nat) (reg : Registration),
      reg ∈ moduleDelta combineRW ctr ps gs cs →
      reg.handler.inst.seed = reg.handler.inst.cls :: (ps ++ gs) ∧
      reg.handler.inst.cls ∈ cs ∧
      ctr ≤ reg.handler.inst.injectorId ∧
      reg.handler.inst.injectorId < ctr + cs.length := by
  intro cs
  induction cs with
  | nil =>
    intro ctr reg h
    simp [moduleDelta] at h
  | cons c rest ih =>
    intro ctr reg h
    rw [moduleDelta] at h
    rcases List.mem_append.mp h with h1 | h2
    · rw [mem_routerDelta_handler _ _ _ h1]
      refine ⟨rfl, by simp, Nat.le_refl _, ?_⟩
      show ctr < ctr + (rest.length + 1)
      omega
    · rcases ih (ctr + 1) reg h2 with ⟨hs, hm, hlb, hub⟩
      refine ⟨hs, by simp [hm], by omega, ?_⟩
      simp only [List.length_cons]
      omega

/-- Helper: within one module's registrations, a container id determines the
controller instance: containers are never shared across iterations. -/
theorem moduleDelta_inst_unique (combineRW : Nat → List CombineRoute) (ps gs : List Nat) :
    ∀ (cs : List Nat) (ctr : Nat) (r1 r2 : Registration),
      r1 ∈ moduleDelta combineRW ctr ps gs cs →
      r2 ∈ moduleDelta combineRW ctr ps gs cs →
      r1.handler.inst.injectorId = r2.handler.inst.injectorId →
      r1.handler.inst = r2.handler.inst := by
  intro cs
  induction cs with
  | nil =>
    intro ctr r1 r2 h1 _ _
    simp [moduleDelta] at h1
  | cons c rest ih =>
    intro ctr r1 r2 h1 h2 hid
    rw [moduleDelta] at h1 h2
    rcases List.mem_append.mp h1 with ha | ha <;> rcases List.mem_append.mp h2 with hb | hb
    · rw [mem_routerDelta_handler _ _ _ ha, mem_routerDelta_handler _ _ _ hb]
    · exfalso
      rw [mem_routerDelta_handler _ _ _ ha] at hid
      have hlb := (mem_moduleDelta combineRW ps gs rest (ctr + 1) r2 hb).2.2.1
      have hid' : ctr = r2.handler.inst.injectorId := hid
      omega
    · exfalso
      rw [mem_routerDelta_handler _ _ _ hb] at hid
      have hlb := (mem_moduleDelta combineRW ps gs rest (ctr + 1) r1 ha).2.2.1
      have hid' : r1.handler.inst.injectorId = ctr := hid
      omega
    · exact ih (ctr + 1) r1 r2 ha hb hid

/-- C5: every controller a module registers gets a container seeded with
exactly `controller :: moduleProviders ++ globalProviders` and its instance is
fetched from that container; a container is never shared between two
controller registrations (equal container ids force equal instances); and a
controller passed through the standalone `controllers` option is seeded with
only `controller :: globalProviders`, with no module-scoped providers. -/
theorem controller_container_seeding :
    (∀ (combineRW : Nat → List CombineRoute) (ctr : Nat) (module : ModuleMetadata)
        (option : Option ExpressAppOption) (reg : Registration),
      reg ∈ (addModuleToExpressApp combineRW [] ctr module option).1 →
        reg.handler.inst.seed =
          reg.handler.inst.cls :: (module.providers.getD [] ++ globalProviders option) ∧
        reg.handler.inst.cls ∈ module.controllers.getD []) ∧
    (∀ (combineRW : Nat → List CombineRoute) (ctr : Nat) (module : ModuleMetadata)
        (option : Option ExpressAppOption) (r1 r2 : Registration),
      r1 ∈ (addModuleToExpressApp combineRW [] ctr module option).1 →
      r2 ∈ (addModuleToExpressApp combineRW [] ctr module option).1 →
      r1.handler.inst.injectorId = r2.handler.inst.injectorId →
      r1.handler.inst = r2.handler.inst) ∧
    (∀ (moduleMeta : Nat → ModuleMetadata) (combineRW : Nat → List CombineRoute)
        (cs gs : List Nat) (reg : Registration),
      reg ∈ (useExpressServer moduleMeta combineRW [] 0
          (some (ExpressAppOption.mk none (some cs) (some gs)))).1.1 →
        reg.handler.inst.seed = reg.handler.inst.cls :: gs) := by
  refine ⟨?_, ?_, ?_⟩
  · intro combineRW ctr module option reg hmem
    rw [addModuleToExpressApp_eq] at hmem
    simp only [List.nil_append] at hmem
    rcases mem_moduleDelta combineRW _ _ _ _ _ hmem with ⟨hs, hm, _⟩
    exact ⟨hs, hm⟩
  · intro combineRW ctr module option r1 r2 h1 h2 hid
    rw [addModuleToExpressApp_eq] at h1 h2
    simp only [List.nil_append] at h1 h2
    exact moduleDelta_inst_unique combineRW _ _ _ _ r1 r2 h1 h2 hid
  · intro moduleMeta combineRW cs gs reg hmem
    simp only [useExpressServer, optionImports, optionControllers, Option.getD_some,
      List.foldl_nil] at hmem
    by_cases hcs : cs.length > 0
    · rw [if_pos hcs] at hmem
      rw [addModuleToExpressApp_eq] at hmem
      simp only [List.nil_append] at hmem
      have := (mem_moduleDelta combineRW _ _ _ _ _ hmem).1
      simpa [globalProviders] using this
    · rw [if_neg hcs] at hmem
      simp at hmem

/-- Witness for C5 at one standalone controller with no providers. -/
theorem controller_container_seeding_witness :
    ((Registration.mk "get" ['/', 'p'] none
        (BoundHandler.mk (ControllerInstance.mk 0 0 [0]) "h")) ∈
      (addModuleToExpressApp exampleCombineRW [] 0 (ModuleMetadata.mk (some [0]) none)
        none).1) ∧
    ((Registration.mk "get" ['/', 'p'] none
        (BoundHandler.mk (ControllerInstance.mk 0 0 [0]) "h")).handler.inst.seed =
      (Registration.mk "get" ['/', 'p'] none
        (BoundHandler.mk (ControllerInstance.mk 0 0 [0]) "h")).handler.inst.cls ::
        ((ModuleMetadata.mk (some [0]) none).providers.getD [] ++ globalProviders none) ∧
     (Registration.mk "get" ['/', 'p'] none
        (BoundHandler.mk (ControllerInstance.mk 0 0 [0]) "h")).handler.inst.cls ∈
        (ModuleMetadata.mk (some [0]) none).controllers.getD []) :=
  ⟨by decide, controller_container_seeding.1 exampleCombineRW 0
    (ModuleMetadata.mk (some [0]) none) none _ (by decide)⟩

/-- C8: useExpressServer returns the boolean true for every application
handle and every options value, the omitted options argument (`none`)
included. -/
theorem useExpressServer_returns_true (moduleMeta : Nat → ModuleMetadata)
    (combineRW : Nat → List CombineRoute) (app : App) (ctr : Nat)
    (option : Option ExpressAppOption) :
    (useExpressServer moduleMeta combineRW app ctr option).2 = true := rfl

/-- Helper: the verb-path projection distributes over appending. -/
theorem verbPaths_append (a b : App) :
    verbPaths (a ++ b) = verbPaths a ++ verbPaths b := by
  simp [verbPaths]

/-- Helper: the verb of an emitted registration entry. -/
theorem registrationOf_verb (pfx : JSString) (ci : ControllerInstance)
    (route : CombineRoute) :
    (registrationOf pfx ci route).verb = route.requestMethod := rfl

/-- Helper: the path of an emitted registration entry. -/
theorem registrationOf_path (pfx : JSString) (ci : ControllerInstance)
    (route : CombineRoute) :
    (registrationOf pfx ci route).path = combineRouterPath pfx route.path := rfl

/-- Helper: the verb-path pairs of one controller's registrations do not
depend on the controller instance. -/
theorem verbPaths_routerDelta (rs : List CombineRoute) (ci : ControllerInstance) :
    verbPaths (routerDelta rs ci) = routeVPs rs := by
  simp only [routerDelta, routeVPs, verbPaths]
  generalize getPrefix rs = pfx
  induction rs with
  | nil => rfl
  | cons r rest ih =>
    cases hc : r.isClass <;>
      simp [List.filterMap_cons, hc, registrationOf_verb, registrationOf_path, ih]

/-- Helper: the verb-path pairs of one module's registrations depend only on
its controllers. -/
theorem verbPaths_moduleDelta (combineRW : Nat → List CombineRoute) (ps gs : List Nat) :
    ∀ (cs : List Nat) (ctr : Nat),
      verbPaths (moduleDelta combineRW ctr ps gs cs) = moduleVPs combineRW cs := by
  intro cs
  induction cs with
  | nil =>
    intro ctr
    rfl
  | cons c rest ih =>
    intro ctr
    rw [moduleDelta, verbPaths_append, verbPaths_routerDelta, ih]
    simp [moduleVPs]

/-- Helper: one module registration appends its verb-path pairs. -/
theorem verbPaths_addModule (combineRW : Nat → List CombineRoute) (app : App)
    (ctr : Nat) (module : ModuleMetadata) (option : Option ExpressAppOption) :
    verbPaths ((addModuleToExpressApp combineRW app ctr module option).1) =
      verbPaths app ++ moduleVPs combineRW (module.controllers.getD []) := by
  rw [addModuleToExpressApp_eq]
  simp [verbPaths_append, verbPaths_moduleDelta]

/-- Helper: the fold over imported modules appends each module's verb-path
pairs. -/
theorem verbPaths_moduleFold (moduleMeta : Nat → ModuleMetadata)
    (combineRW : Nat → List CombineRoute) (option : Option ExpressAppOption) :
    ∀ (ms : List Nat) (st : App × Nat),
      verbPaths ((ms.foldl (fun st moduleClass =>
          addModuleToExpressApp combineRW st.1 st.2 (moduleMeta moduleClass) option)
        st).1) =
      verbPaths st.1 ++
        ms.flatMap (fun mc => moduleVPs combineRW ((moduleMeta mc).controllers.getD [])) := by
  intro ms
  induction ms with
  | nil =>
    intro st
    simp
  | cons m rest ih =>
    intro st
    rw [List.foldl_cons, ih, verbPaths_addModule]
    simp [List.append_assoc]

/-- Helper: one `useExpressServer` call appends `serverVPs` to the verb-path
projection of the routing table. -/
theorem verbPaths_useExpressServer (moduleMeta : Nat → ModuleMetadata)
    (combineRW : Nat → List CombineRoute) (option : Option ExpressAppOption)
    (app : App) (ctr : Nat) :
    verbPaths ((useExpressServer moduleMeta combineRW app ctr option).1.1) =
      verbPaths app ++ serverVPs moduleMeta combineRW option := by
  simp only [useExpressServer, serverVPs]
  by_cases hc : (optionControllers option).length > 0
  · rw [if_pos hc, if_pos hc, verbPaths_addModule,
      verbPaths_moduleFold moduleMeta combineRW option _ (app, ctr)]
    simp [List.append_assoc]
  · rw [if_neg hc, if_neg hc,
      verbPaths_moduleFold moduleMeta combineRW option _ (app, ctr)]
    simp

/-- C7: `useExpressServer` is not idempotent: after calling it twice on the
same application handle with the same options, every verb-and-path pair is
registered exactly twice as many times as after one call; at a concrete
one-route option the pair `get /p` is registered once by a single call and
twice by the double call — duplication, not a merge and not an error. -/
theorem useExpressServer_not_idempotent :
    (∀ (moduleMeta : Nat → ModuleMetadata) (combineRW : Nat → List CombineRoute)
        (option : Option ExpressAppOption) (vp : String × JSString),
      (verbPaths (useExpressServer moduleMeta combineRW
            (useExpressServer moduleMeta combineRW [] 0 option).1.1
            (useExpressServer moduleMeta combineRW [] 0 option).1.2 option).1.1).count vp =
        2 * (verbPaths (useExpressServer moduleMeta combineRW [] 0 option).1.1).count vp) ∧
    (verbPaths (useExpressServer exampleModuleMeta exampleCombineRW [] 0
        exampleOption).1.1).count ("get", ['/', 'p']) = 1 ∧
    (verbPaths (useExpressServer exampleModuleMeta exampleCombineRW
        (useExpressServer exampleModuleMeta exampleCombineRW [] 0 exampleOption).1.1
        (useExpressServer exampleModuleMeta exampleCombineRW [] 0 exampleOption).1.2
        exampleOption).1.1).count ("get", ['/', 'p']) = 2 := by
  refine ⟨?_, by decide, by decide⟩
  intro moduleMeta combineRW option vp
  simp only [verbPaths_useExpressServer]
  simp [List.count_append, verbPaths]
  try omega
